import Mathlib

/-!
Verification of the CachyOS updater (`modules/updaters/CachyOS.py`).

The Python source is shallowly embedded: each method becomes a Lean
function over explicit inputs.  HTML parsing (BeautifulSoup) is abstracted
as the list of link tags the CSS selector `table#list tbody tr td.link a`
returns, each carrying optional `href` and `title` attributes exactly as
`Tag.get` exposes them.  Python exceptions become an explicit error type,
and `functools.cache` becomes explicit cache fields threaded through a
resolver state.
-/

/-- Python exception kinds raised (directly or via libraries) by the code
under study.  `versionNotFound` is `modules.exceptions.VersionNotFoundError`,
`valueError` is `ValueError`, `connectionError` is `ConnectionError`,
`typeError` is `TypeError` (raised e.g. by `re.match` on `None`), and
`transportError` stands for a `requests` transport-level failure. -/
inductive PyError where
  | versionNotFound (msg : String)
  | valueError (msg : String)
  | connectionError (msg : String)
  | typeError (msg : String)
  | transportError
  deriving DecidableEq, Repr

/-- One `<a>` tag from the listing table, as seen through `Tag.get`:
either attribute may be absent (`none`). -/
structure Link where
  href : Option String
  title : Option String
  deriving DecidableEq, Repr

/-- An HTTP response as the code consumes it: `requests.Response.status_code`
and `requests.Response.text`. -/
structure HttpResponse where
  statusCode : Nat
  text : String
  deriving DecidableEq, Repr

/-- `DOMAIN = "https://cdn.cachyos.org"` (CachyOS.py line 13). -/
def DOMAIN : String := "https://cdn.cachyos.org"

/-- `DOWNLOAD_PAGE_URL = f"{DOMAIN}/ISO"` (CachyOS.py line 14). -/
def DOWNLOAD_PAGE_URL : String := DOMAIN ++ "/ISO"

/-- `FILE_NAME = "cachyos-[[EDITION]]-linux-[[VER]].iso"` (CachyOS.py line 15). -/
def FILE_NAME : String := "cachyos-[[EDITION]]-linux-[[VER]].iso"

/-- `valid_editions = ["desktop", "handheld"]` (CachyOS.py line 32). -/
def valid_editions : List String := ["desktop", "handheld"]

/-- Python `str.lower()` restricted to ASCII (the editions are ASCII). -/
def pyLower (s : String) : String := String.mk (s.data.map Char.toLower)

/-- Python `str(x)` for an `Optional[str]`: `str(None) = "None"`; used to
model f-string interpolation of a possibly-`None` version. -/
def pyStr : Option String → String
  | some s => s
  | none => "None"

/-- Consume exactly `n` leading decimal digits, returning the remainder of
the character list, or `none` if fewer than `n` digits lead. -/
def startsWithDigits : Nat → List Char → Option (List Char)
  | 0, rest => some rest
  | _ + 1, [] => none
  | n + 1, c :: rest => if c.isDigit then startsWithDigits n rest else none

/-- Python `re.match(r"\d\x7b6\x7d/", s)` viewed as a Boolean: `re.match`
anchors at the start of the string only, so the test is "six digits then a
slash, then anything" (CachyOS.py line 76). -/
def reMatchVersion (s : String) : Bool :=
  match startsWithDigits 6 s.data with
  | some (c :: _) => c == '/'
  | _ => false

/-- The list comprehension of `_get_latest_version` (CachyOS.py lines 72-77):
`[link.get("title") for link in download_links if re.match(r"\d\x7b6\x7d/", link.get("href"))]`.
Evaluated left to right; a link whose `href` attribute is absent makes
`re.match` receive `None` and raise `TypeError`; a surviving link
contributes its `title` attribute, which may itself be `None`. -/
def collectVersionNumbers : List Link → Except PyError (List (Option String))
  | [] => .ok []
  | l :: ls =>
    match l.href with
    | none => .error (.typeError "expected string or bytes-like object")
    | some h =>
      if reMatchVersion h then
        match collectVersionNumbers ls with
        | .ok rest => .ok (l.title :: rest)
        | .error e => .error e
      else
        collectVersionNumbers ls

/-- Python comparison `a > b` on `Optional[str]` operands: defined for two
strings (lexicographic by code point), `TypeError` whenever either operand
is `None`. -/
def pyGt : Option String → Option String → Except PyError Bool
  | some a, some b => .ok (decide (b < a))
  | _, _ => .error (.typeError "comparison not supported between instances of str and NoneType")

/-- The loop inside CPython `max`: keep the running maximum, replacing it
whenever `item > max_val`. -/
def pyMaxFold (cur : Option String) : List (Option String) → Except PyError (Option String)
  | [] => .ok cur
  | x :: xs =>
    match pyGt x cur with
    | .error e => .error e
    | .ok b => pyMaxFold (if b then x else cur) xs

/-- Python `max(xs)` on a list of `Optional[str]`: `ValueError` on an empty
list, otherwise a fold comparing each later element against the running
maximum (so any `None` in a list of two or more elements raises
`TypeError`, while `max([None]) = None`). -/
def pyMax : List (Option String) → Except PyError (Option String)
  | [] => .error (.valueError "max() arg is an empty sequence")
  | x :: xs => pyMaxFold x xs

/-- `_get_latest_version` (CachyOS.py lines 65-83), as a function of the
link tags the CSS selector returned: raise `VersionNotFoundError` when the
selector found nothing, collect candidate titles from links whose `href`
matches the version pattern, raise `VersionNotFoundError` when no
candidate survives, else return `max(version_numbers)`. -/
def getLatestVersion (downloadLinks : List Link) : Except PyError (Option String) :=
  if downloadLinks.isEmpty then
    .error (.versionNotFound "We were not able to parse the download page")
  else
    match collectVersionNumbers downloadLinks with
    | .error e => .error e
    | .ok versionNumbers =>
      if versionNumbers.isEmpty then
        .error (.versionNotFound "No valid version numbers found in the download links")
      else
        pyMax versionNumbers

/-- The URL f-string of `_get_download_link` (CachyOS.py line 50):
`f"{DOWNLOAD_PAGE_URL}/{self.edition}/{latest_version}/cachyos-{self.edition}-linux-{latest_version}.iso"`. -/
def getDownloadLink (edition latestVersion : String) : String :=
  DOWNLOAD_PAGE_URL ++ "/" ++ edition ++ "/" ++ latestVersion ++ "/cachyos-" ++
    edition ++ "-linux-" ++ latestVersion ++ ".iso"

/-- The canonical artifact filename as built inline in `check_integrity`
(CachyOS.py line 55): `f"cachyos-{self.edition}-linux-{self._get_latest_version()}.iso"`. -/
def canonicalFileName (edition latestVersion : String) : String :=
  "cachyos-" ++ edition ++ "-linux-" ++ latestVersion ++ ".iso"

/-- Python `str.isspace` for the characters `str.split()` treats as
separators (space, tab, newline, carriage return, vertical tab, form feed). -/
def pyIsSpace (c : Char) : Bool :=
  c == ' ' || c == '\t' || c == '\n' || c == '\r' || c == '\x0b' || c == '\x0c'

/-- Worker for `pySplit`: accumulate the current token (reversed) and cut
at whitespace, emitting no empty tokens. -/
def splitWsAux : List Char → List Char → List String
  | [], acc => if acc.isEmpty then [] else [String.mk acc.reverse]
  | c :: rest, acc =>
    if pyIsSpace c then
      if acc.isEmpty then splitWsAux rest []
      else String.mk acc.reverse :: splitWsAux rest []
    else splitWsAux rest (c :: acc)

/-- Python `line.split()` with no argument: split on runs of whitespace,
producing no empty tokens and ignoring leading and trailing whitespace
(CachyOS.py line 60). -/
def pySplit (s : String) : List String :=
  splitWsAux s.data []

/-- Worker for `pySplitlines`: accumulate the current line (reversed) and
cut at `\r\n`, `\r` or `\n`; a trailing terminator yields no extra empty
line, matching Python `str.splitlines()`. -/
def splitlinesAux : List Char → List Char → List String
  | [], acc => if acc.isEmpty then [] else [String.mk acc.reverse]
  | '\r' :: '\n' :: rest, acc => String.mk acc.reverse :: splitlinesAux rest []
  | '\r' :: rest, acc => String.mk acc.reverse :: splitlinesAux rest []
  | '\n' :: rest, acc => String.mk acc.reverse :: splitlinesAux rest []
  | c :: rest, acc => splitlinesAux rest (c :: acc)

/-- Python `str.splitlines()` (restricted to the ASCII line terminators
`\n`, `\r`, `\r\n`), as used on the manifest text (CachyOS.py line 59). -/
def pySplitlines (s : String) : List String :=
  splitlinesAux s.data []

/-- The search loop of `_parse_sha256_hash` (CachyOS.py lines 59-63) over
the already-split lines. -/
def findHashLoop (filename : String) : List String → Except PyError String
  | [] => .error (.valueError ("Hash not found for the specified file: " ++ filename))
  | line :: rest =>
    let parts := pySplit line
    if parts.length == 2 && parts.getD 1 "" == filename then
      .ok (parts.getD 0 "")
    else
      findHashLoop filename rest

/-- `_parse_sha256_hash` (CachyOS.py lines 58-63): scan
`hash_file_content.splitlines()` for the first line splitting into exactly
two whitespace-separated tokens whose second token equals `filename`;
return that line's first token, else raise `ValueError`. -/
def parseSha256Hash (hashFileContent filename : String) : Except PyError String :=
  findHashLoop filename (pySplitlines hashFileContent)

/-- The state a constructed `CachyOS` instance carries, as far as the
claims need it: the normalized edition, the link tags parsed out of the
fetched download page, and one cache slot per `functools.cache`-decorated
method (`_get_latest_version`, `_get_download_link`).  `functools.cache`
stores only values actually returned (a raised exception caches nothing). -/
structure Resolver where
  edition : String
  downloadLinks : List Link
  versionCache : Option (Option String)
  linkCache : Option String
  deriving DecidableEq, Repr

/-- A freshly constructed resolver: both method caches empty. -/
def mkResolver (edition : String) (downloadLinks : List Link) : Resolver :=
  ⟨edition, downloadLinks, none, none⟩

/-- `__init__` (CachyOS.py lines 31-45).  `fetchPage` stands for
`requests.get` (returning a response or a transport error) and `parse` for
`BeautifulSoup(...)` followed by the CSS selection of link tags; both are
oracles because network and HTML parsing are outside the embedding.
`GenericUpdater.__init__` (absent from `src/`) is treated as pure path
plumbing, per its description in the spec.  The edition is lowercased, its
membership in `valid_editions` checked before any fetch, then one GET of
the edition listing page is issued and a non-200 status is a
`ConnectionError`. -/
def initResolver (edition : String)
    (fetchPage : String → Except PyError HttpResponse)
    (parse : String → List Link) : Except PyError Resolver :=
  let ed := pyLower edition
  if ed ∈ valid_editions then
    match fetchPage (DOWNLOAD_PAGE_URL ++ "/" ++ ed) with
    | .error e => .error e
    | .ok resp =>
      if resp.statusCode ≠ 200 then
        .error (.connectionError
          ("Failed to fetch the download page from " ++ DOWNLOAD_PAGE_URL ++ "/" ++ ed))
      else
        .ok (mkResolver ed (parse resp.text))
  else
    .error (.valueError
      ("Invalid edition: " ++ ed ++ ". Valid editions are: [desktop, handheld]"))

/-- `_get_latest_version` through its `functools.cache` wrapper: a cached
value is returned without touching the listing; otherwise the body runs
and a successful result is stored. -/
def getLatestVersionR (r : Resolver) : Except PyError (Option String) × Resolver :=
  match r.versionCache with
  | some v => (.ok v, r)
  | none =>
    match getLatestVersion r.downloadLinks with
    | .ok v => (.ok v, { r with versionCache := some v })
    | .error e => (.error e, r)

/-- `_get_download_link` (CachyOS.py lines 47-50) through its
`functools.cache` wrapper: on a cache miss it calls the (cached)
`_get_latest_version` and formats the URL f-string. -/
def getDownloadLinkR (r : Resolver) : Except PyError String × Resolver :=
  match r.linkCache with
  | some u => (.ok u, r)
  | none =>
    match getLatestVersionR r with
    | (.ok v, r') =>
      let u := getDownloadLink r.edition (pyStr v)
      (.ok u, { r' with linkCache := some u })
    | (.error e, r') => (.error e, r')

/-- Modelled from the spec: `sha256_hash_check` lives in `modules/utils.py`,
which is absent from `src/`; the spec says the integrity check "compares
the result against a locally computed hash of the file" and "returns true
only on exact hash equality", so it is the equality test between the
locally computed hash and the expected hash. -/
def sha256_hash_check (localHash expectedHash : String) : Bool :=
  localHash == expectedHash

/-- `check_integrity` (CachyOS.py lines 52-56).  `manifestFetch` stands
for `requests.get(sha256_url)`: a transport failure raises, but note the
code reads `.text` without ever inspecting the response status code.
`localHash` stands for the locally computed SHA-256 of the file at
`self._get_complete_normalized_file_path(absolute=True)`. -/
def check_integrity (r : Resolver)
    (manifestFetch : Except PyError HttpResponse)
    (localHash : String) : Except PyError Bool × Resolver :=
  match getDownloadLinkR r with
  | (.error e, r₁) => (.error e, r₁)
  | (.ok _sha256UrlBase, r₁) =>
    match manifestFetch with
    | .error e => (.error e, r₁)
    | .ok resp =>
      match getLatestVersionR r₁ with
      | (.error e, r₂) => (.error e, r₂)
      | (.ok v, r₂) =>
        match parseSha256Hash resp.text (canonicalFileName r₂.edition (pyStr v)) with
        | .error e => (.error e, r₂)
        | .ok sha256Sum => (.ok (sha256_hash_check localHash sha256Sum), r₂)

/-
Spec-side comparison definitions and helper lemmas.
-/

/-- Spec-side reading of the version pattern as an exact form: the href
consists of exactly six digits followed by a slash and nothing else. -/
def exactVersionHref (s : String) : Bool :=
  match startsWithDigits 6 s.data with
  | some rest => rest == ['/']
  | none => false

/-- The candidate a link contributes when the extractor is given only
well-behaved links: its title, provided the href is present, matches the
version pattern, and the title is present. -/
def versionCandidateTitle (l : Link) : Option String :=
  match l.href, l.title with
  | some h, some t => if reMatchVersion h then some t else none
  | _, _ => none

/-- The titles of the well-formed version links of a listing. -/
def wellTitles (links : List Link) : List String :=
  links.filterMap versionCandidateTitle

/-- The running lexical maximum of `c` and the elements of `ts`, exactly
as CPython `max` folds it. -/
def maxFrom (c : String) (ts : List String) : String :=
  ts.foldl (fun a b => if a < b then b else a) c

/-- Spec-side view of one manifest line: the hash it offers for
`filename`, i.e. its first whitespace token when the line splits into
exactly two tokens and the second equals `filename`, else nothing. -/
def manifestLineHash (filename line : String) : Option String :=
  let parts := pySplit line
  if parts.length == 2 && parts.getD 1 "" == filename then
    some (parts.getD 0 "")
  else
    none

/-- Spec-side list of hashes of the manifest lines that split into exactly
two whitespace tokens whose second token is `filename`, in manifest order. -/
def matchingHashes (content filename : String) : List String :=
  (pySplitlines content).filterMap (manifestLineHash filename)

theorem findHashLoop_cons (filename line : String) (rest : List String) :
    findHashLoop filename (line :: rest) =
      match manifestLineHash filename line with
      | some h => Except.ok h
      | none => findHashLoop filename rest := by
  simp only [findHashLoop, manifestLineHash]
  cases hc : ((pySplit line).length == 2 && (pySplit line).getD 1 "" == filename) <;>
    simp [hc]

theorem findHashLoop_eq_head (filename : String) (lines : List String) :
    findHashLoop filename lines =
      match (lines.filterMap (manifestLineHash filename)).head? with
      | some h => Except.ok h
      | none =>
        Except.error (.valueError ("Hash not found for the specified file: " ++ filename)) := by
  induction lines with
  | nil => rfl
  | cons line rest ih =>
    rw [findHashLoop_cons]
    cases hm : manifestLineHash filename line with
    | some h => simp [List.filterMap_cons, hm]
    | none => simp [List.filterMap_cons, hm, ih]

theorem maxFrom_mem (c : String) (ts : List String) : maxFrom c ts ∈ c :: ts := by
  induction ts generalizing c with
  | nil => simp [maxFrom]
  | cons t ts ih =>
    simp only [maxFrom, List.foldl_cons]
    have h := ih (if c < t then t else c)
    simp only [maxFrom] at h
    rcases List.mem_cons.mp h with h1 | h1
    · rw [h1]
      by_cases hct : c < t
      · rw [if_pos hct]
        exact List.mem_cons.mpr (Or.inr (List.mem_cons_self t ts))
      · rw [if_neg hct]
        exact List.mem_cons_self c (t :: ts)
    · exact List.mem_cons.mpr (Or.inr (List.mem_cons.mpr (Or.inr h1)))

theorem le_maxFrom_self (c : String) (ts : List String) : c ≤ maxFrom c ts := by
  induction ts generalizing c with
  | nil => simp [maxFrom]
  | cons t ts ih =>
    have step : c ≤ (if c < t then t else c) := by
      by_cases hct : c < t
      · rw [if_pos hct]; exact le_of_lt hct
      · rw [if_neg hct]
    exact le_trans step (ih (if c < t then t else c))

theorem le_maxFrom_of_mem (c : String) (ts : List String) :
    ∀ t ∈ ts, t ≤ maxFrom c ts := by
  induction ts generalizing c with
  | nil => intro t ht; simp at ht
  | cons t' ts ih =>
    intro t ht
    rcases List.mem_cons.mp ht with rfl | hmem
    · have step : t ≤ (if c < t then t else c) := by
        by_cases hct : c < t
        · rw [if_pos hct]
        · rw [if_neg hct]; exact le_of_not_lt hct
      simpa only [maxFrom, List.foldl_cons] using
        le_trans step (le_maxFrom_self (if c < t then t else c) ts)
    · simpa only [maxFrom, List.foldl_cons] using ih (if c < t' then t' else c) t hmem

theorem le_maxFrom (c : String) (ts : List String) :
    ∀ t ∈ c :: ts, t ≤ maxFrom c ts := by
  intro t ht
  rcases List.mem_cons.mp ht with rfl | hmem
  · exact le_maxFrom_self t ts
  · exact le_maxFrom_of_mem c ts t hmem

/-- A link is benign for the comprehension when its `href` is present and,
if that href matches the version pattern, its `title` is present too. -/
def benignLink (l : Link) : Bool :=
  match l.href, l.title with
  | none, _ => false
  | some h, none => !reMatchVersion h
  | some _, some _ => true

theorem collect_eq_map_some (links : List Link)
    (hb : links.all benignLink = true) :
    collectVersionNumbers links = .ok ((wellTitles links).map some) := by
  induction links with
  | nil => rfl
  | cons l ls ih =>
    rw [List.all_cons, Bool.and_eq_true] at hb
    obtain ⟨hl, hls⟩ := hb
    cases hhref : l.href with
    | none => simp [benignLink, hhref] at hl
    | some h =>
      cases htitle : l.title with
      | none =>
        simp only [benignLink, hhref, htitle, Bool.not_eq_true'] at hl
        have hm : reMatchVersion h = false := hl
        simp [collectVersionNumbers, hhref, hm, ih hls, wellTitles,
          List.filterMap_cons, versionCandidateTitle, htitle]
      | some t =>
        cases hm : reMatchVersion h with
        | false =>
          simp [collectVersionNumbers, hhref, hm, ih hls, wellTitles,
            List.filterMap_cons, versionCandidateTitle, htitle]
        | true =>
          simp [collectVersionNumbers, hhref, hm, ih hls, wellTitles,
            List.filterMap_cons, versionCandidateTitle, htitle]

theorem pyMaxFold_map_some (ts : List String) (c : String) :
    pyMaxFold (some c) (ts.map some) = .ok (some (maxFrom c ts)) := by
  induction ts generalizing c with
  | nil => rfl
  | cons t ts ih =>
    have hstep : (if decide (c < t) = true then some t else some c) =
        some (if c < t then t else c) := by
      by_cases hct : c < t
      · rw [if_pos hct, if_pos (by simpa using hct)]
      · rw [if_neg hct, if_neg (by simpa using hct)]
    have hmax : maxFrom c (t :: ts) = maxFrom (if c < t then t else c) ts := rfl
    simp only [List.map_cons, pyMaxFold, pyGt, hstep, hmax, ih]

theorem getLatestVersion_eq_max (links : List Link) (t0 : String) (ts : List String)
    (hb : links.all benignLink = true)
    (hw : wellTitles links = t0 :: ts) :
    getLatestVersion links = .ok (some (maxFrom t0 ts)) := by
  have hne : links ≠ [] := by
    intro h
    rw [h] at hw
    exact absurd hw (by simp [wellTitles])
  have hcol := collect_eq_map_some links hb
  rw [hw] at hcol
  simp only [getLatestVersion, List.isEmpty_eq_true]
  rw [if_neg hne, hcol]
  simp only [List.map_cons, List.isEmpty_cons, pyMax]
  rw [if_neg (by simp)]
  exact pyMaxFold_map_some ts t0

theorem startsWithDigits_all (l rest : List Char) (h : l.all Char.isDigit = true) :
    startsWithDigits l.length (l ++ rest) = some rest := by
  induction l with
  | nil => rfl
  | cons c cs ih =>
    rw [List.all_cons, Bool.and_eq_true] at h
    simp only [List.length_cons, List.cons_append, startsWithDigits]
    rw [if_pos h.1]
    exact ih h.2

/-- A link whose `href` is present but fails the version pattern: these are
the malformed rows the comprehension genuinely discards. -/
def nonMatchingLink (l : Link) : Bool :=
  match l.href with
  | some h => !reMatchVersion h
  | none => false

theorem collect_nonmatching (links : List Link) (h : links.all nonMatchingLink = true) :
    collectVersionNumbers links = .ok [] := by
  have hb : links.all benignLink = true := by
    rw [List.all_eq_true] at h ⊢
    intro l hl
    have hx := h l hl
    cases hh : l.href with
    | none => simp [nonMatchingLink, hh] at hx
    | some s =>
      simp only [nonMatchingLink, hh, Bool.not_eq_true'] at hx
      cases ht : l.title with
      | none => simp [benignLink, hh, ht, hx]
      | some t => simp [benignLink, hh, ht]
  have hw : wellTitles links = [] := by
    rw [wellTitles, List.filterMap_eq_nil_iff]
    intro l hl
    have hx := (List.all_eq_true.mp h) l hl
    cases hh : l.href with
    | none => simp [versionCandidateTitle, hh]
    | some s =>
      simp only [nonMatchingLink, hh, Bool.not_eq_true'] at hx
      cases ht : l.title with
      | none => simp [versionCandidateTitle, hh, ht]
      | some t => simp [versionCandidateTitle, hh, ht, hx]
  have hc := collect_eq_map_some links hb
  rw [hw] at hc
  simpa using hc

theorem collect_skip (pre post : List Link) (l : Link) (h : String)
    (hh : l.href = some h) (hm : reMatchVersion h = false) :
    collectVersionNumbers (pre ++ l :: post) = collectVersionNumbers (pre ++ post) := by
  induction pre with
  | nil => simp [collectVersionNumbers, hh, hm]
  | cons p pre ih =>
    cases hph : p.href with
    | none => simp [collectVersionNumbers, hph]
    | some hp => simp [collectVersionNumbers, hph, ih]

/-- Claim C2: `_parse_sha256_hash` returns the hash token of the first
manifest line that splits on whitespace into exactly two tokens whose
second token equals the filename exactly; lines not splitting into two
tokens are skipped without error; with duplicate filenames the
first-listed hash wins; with no matching line it raises `ValueError`
naming the filename. -/
theorem claim_C2 (content filename : String) :
    parseSha256Hash content filename =
      match (matchingHashes content filename).head? with
      | some h => Except.ok h
      | none =>
        Except.error
          (.valueError ("Hash not found for the specified file: " ++ filename)) :=
  findHashLoop_eq_head filename (pySplitlines content)

/-- Claim C4: the artifact locator is pure and deterministic; for every
edition and version the derived URL is exactly
`{base}/ISO/{edition}/{version}/cachyos-{edition}-linux-{version}.iso`,
and two calls with identical inputs yield byte-identical URL and
filename. -/
theorem claim_C4 :
    (∀ edition version : String,
      getDownloadLink edition version =
        "https://cdn.cachyos.org/ISO/" ++ edition ++ "/" ++ version ++ "/cachyos-" ++
          edition ++ "-linux-" ++ version ++ ".iso") ∧
    (∀ edition version : String,
      getDownloadLink edition version = getDownloadLink edition version ∧
      canonicalFileName edition version = canonicalFileName edition version) :=
  ⟨fun _ _ => rfl, fun _ _ => ⟨rfl, rfl⟩⟩

/-- Claim C5 (amended): both extractor failure conditions raise the same
error kind, `VersionNotFoundError`, distinguished only by message: an
empty link selection reports "We were not able to parse the download
page", and links none of which match the version pattern report "No valid
version numbers found in the download links"; neither case silently
defaults to an arbitrary version. -/
theorem claim_C5 :
    getLatestVersion [] =
      Except.error (PyError.versionNotFound "We were not able to parse the download page") ∧
    ∀ links : List Link, links ≠ [] → links.all nonMatchingLink = true →
      getLatestVersion links =
        Except.error
          (PyError.versionNotFound "No valid version numbers found in the download links") := by
  refine ⟨rfl, ?_⟩
  intro links hne hall
  have hc := collect_nonmatching links hall
  have h1 : links.isEmpty = false := by
    cases links with
    | nil => exact absurd rfl hne
    | cons a l => rfl
  simp [getLatestVersion, h1, hc]

/-- The second failure condition of `_get_latest_version` also raises
`VersionNotFoundError`, exercised on a concrete listing. -/
theorem claim_C5_witness :
    getLatestVersion [⟨some "notaversion/", some "bad"⟩] =
      Except.error
        (PyError.versionNotFound "No valid version numbers found in the download links") :=
  claim_C5.2 [⟨some "notaversion/", some "bad"⟩] (by decide) (by decide)

/-- Claim C5 fails as stated: on a listing with zero links,
`_get_latest_version` raises `VersionNotFoundError` itself — there is no
page-structure error kind distinct from `VersionNotFoundError`. -/
theorem claim_C5_counterexample :
    getLatestVersion [] =
      Except.error (PyError.versionNotFound "We were not able to parse the download page") := rfl

/-- Claim C7 (amended): a link that carries an `href` failing the version
pattern is genuinely discarded — removing it from the listing does not
change the extractor's result; but (see the counterexample) a link lacking
an `href` attribute is not discarded: it raises `TypeError`. -/
theorem claim_C7 (pre post : List Link) (l : Link) (h : String)
    (hh : l.href = some h) (hm : reMatchVersion h = false) (hne : pre ++ post ≠ []) :
    getLatestVersion (pre ++ l :: post) = getLatestVersion (pre ++ post) := by
  have hcol := collect_skip pre post l h hh hm
  have h1 : (pre ++ l :: post).isEmpty = false := by cases pre <;> rfl
  have h2 : (pre ++ post).isEmpty = false := by
    cases hp : pre ++ post with
    | nil => exact absurd hp hne
    | cons a as => rfl
  simp [getLatestVersion, h1, h2, hcol]

/-- Discarding a pattern-failing link, exercised on a concrete listing. -/
theorem claim_C7_witness :
    getLatestVersion ([⟨some "240101/", some "v1"⟩] ++ ⟨some "bad/", some "b"⟩ :: []) =
      getLatestVersion ([⟨some "240101/", some "v1"⟩] ++ []) :=
  claim_C7 [⟨some "240101/", some "v1"⟩] [] ⟨some "bad/", some "b"⟩ "bad/" rfl (by decide)
    (by decide)

/-- Claim C7 fails as stated: a link lacking an `href` attribute is not
discarded; `re.match` receives `None` and the extractor raises
`TypeError`, which is neither of the two documented error kinds. -/
theorem claim_C7_counterexample :
    getLatestVersion [⟨none, some "x"⟩] =
      Except.error (PyError.typeError "expected string or bytes-like object") := rfl

/-- Claim C10: the version-pattern test is anchored only at the start:
any href that begins with six digits and a slash is accepted whatever
follows, so the accepted set is a strict superset of the hrefs that are
exactly six digits and a slash. -/
theorem claim_C10 :
    (∀ d t : String, d.data.all Char.isDigit = true → d.data.length = 6 →
      reMatchVersion (d ++ "/" ++ t) = true) ∧
    reMatchVersion "123456/extra" = true ∧
    exactVersionHref "123456/extra" = false := by
  refine ⟨?_, by decide, by decide⟩
  intro d t hall hlen
  have hdata : (d ++ "/" ++ t).data = d.data ++ '/' :: t.data := by
    rw [String.data_append, String.data_append, List.append_assoc]
    rfl
  unfold reMatchVersion
  rw [hdata, ← hlen, startsWithDigits_all d.data ('/' :: t.data) hall]
  rfl

/-- The prefix-anchored pattern accepting an href with trailing
characters, exercised concretely. -/
theorem claim_C10_witness : reMatchVersion ("654321" ++ "/" ++ "tail") = true :=
  claim_C10.1 "654321" "tail" (by decide) (by decide)

/-- Claim C8: constructing a resolver with an edition whose lowercased
form is outside the allowed set raises a `ValueError` before any network
request (the result does not depend on the fetch or parse oracles at
all); membership is checked on the lowercase normalization, and a
successful construction yields the fully initialized resolver. -/
theorem claim_C8 :
    (∀ (edition : String) (fetch fetch' : String → Except PyError HttpResponse)
        (parse parse' : String → List Link),
      pyLower edition ∉ valid_editions →
      initResolver edition fetch parse =
        Except.error (PyError.valueError
          ("Invalid edition: " ++ pyLower edition ++
            ". Valid editions are: [desktop, handheld]")) ∧
      initResolver edition fetch parse = initResolver edition fetch' parse') ∧
    (∀ (edition : String) (fetch : String → Except PyError HttpResponse)
        (parse : String → List Link) (resp : HttpResponse),
      pyLower edition ∈ valid_editions →
      fetch (DOWNLOAD_PAGE_URL ++ "/" ++ pyLower edition) = Except.ok resp →
      resp.statusCode = 200 →
      initResolver edition fetch parse =
        Except.ok (mkResolver (pyLower edition) (parse resp.text))) := by
  constructor
  · intro edition fetch fetch' parse parse' hno
    constructor <;> simp [initResolver, hno]
  · intro edition fetch parse resp hmem hfetch hcode
    simp [initResolver, hmem, hfetch, hcode]

/-- Rejection of a mixed-case unknown edition independently of the
oracles, and acceptance of a mixed-case valid edition, exercised
concretely. -/
theorem claim_C8_witness :
    (initResolver "SERVER" (fun _ => Except.ok ⟨200, "body"⟩) (fun _ => []) =
       Except.error (PyError.valueError
         ("Invalid edition: " ++ pyLower "SERVER" ++
           ". Valid editions are: [desktop, handheld]")) ∧
     initResolver "SERVER" (fun _ => Except.ok ⟨200, "body"⟩) (fun _ => []) =
       initResolver "SERVER" (fun _ => Except.error PyError.transportError)
         (fun _ => [⟨some "x", none⟩])) ∧
    initResolver "DESKTOP" (fun _ => Except.ok ⟨200, "body"⟩) (fun _ => []) =
      Except.ok (mkResolver (pyLower "DESKTOP") []) :=
  ⟨claim_C8.1 "SERVER" _ _ _ _ (by decide),
   claim_C8.2 "DESKTOP" (fun _ => Except.ok ⟨200, "body"⟩) (fun _ => []) ⟨200, "body"⟩
     (by decide) rfl rfl⟩

/-- Claim C9: once `_get_download_link` has returned a URL, calling it
again returns the same URL and leaves the instance unchanged, and on any
instance whose cache already holds the URL the call answers from the
cache without consulting the listing at all. -/
theorem claim_C9 (r s : Resolver) (u : String)
    (h : (getDownloadLinkR r).1 = Except.ok u)
    (hs : s.linkCache = some u) :
    (getDownloadLinkR (getDownloadLinkR r).2).1 = Except.ok u ∧
    (getDownloadLinkR (getDownloadLinkR r).2).2 = (getDownloadLinkR r).2 ∧
    getDownloadLinkR s = (Except.ok u, s) := by
  have hcache : ∀ w : Resolver, w.linkCache = some u →
      getDownloadLinkR w = (Except.ok u, w) := by
    intro w hw
    simp [getDownloadLinkR, hw]
  have h2 : (getDownloadLinkR r).2.linkCache = some u := by
    cases hrc : r.linkCache with
    | some u0 =>
      have hval : getDownloadLinkR r = (Except.ok u0, r) := by
        simp [getDownloadLinkR, hrc]
      rw [hval] at h ⊢
      have hu : u0 = u := by simpa using h
      simp [hrc, hu]
    | none =>
      cases hlv : getLatestVersionR r with
      | mk res r' =>
        cases res with
        | error e =>
          have hval : getDownloadLinkR r = (Except.error e, r') := by
            simp [getDownloadLinkR, hrc, hlv]
          rw [hval] at h
          simp at h
        | ok v =>
          have hval : getDownloadLinkR r =
              (Except.ok (getDownloadLink r.edition (pyStr v)),
               { r' with linkCache := some (getDownloadLink r.edition (pyStr v)) }) := by
            simp [getDownloadLinkR, hrc, hlv]
          rw [hval] at h ⊢
          have hu : getDownloadLink r.edition (pyStr v) = u := by simpa using h
          simp [hu]
  exact ⟨by rw [hcache _ h2], by rw [hcache _ h2], hcache s hs⟩

/-- Resolving twice returns the identical URL, and a cache hit ignores
the listing (here the cached instance holds an empty listing), exercised
concretely. -/
theorem claim_C9_witness :
    (getDownloadLinkR
        (getDownloadLinkR (mkResolver "desktop" [⟨some "240101/", some "v1"⟩])).2).1 =
      Except.ok "https://cdn.cachyos.org/ISO/desktop/v1/cachyos-desktop-linux-v1.iso" ∧
    (getDownloadLinkR
        (getDownloadLinkR (mkResolver "desktop" [⟨some "240101/", some "v1"⟩])).2).2 =
      (getDownloadLinkR (mkResolver "desktop" [⟨some "240101/", some "v1"⟩])).2 ∧
    getDownloadLinkR
        ⟨"desktop", [],
          none, some "https://cdn.cachyos.org/ISO/desktop/v1/cachyos-desktop-linux-v1.iso"⟩ =
      (Except.ok "https://cdn.cachyos.org/ISO/desktop/v1/cachyos-desktop-linux-v1.iso",
       ⟨"desktop", [],
         none, some "https://cdn.cachyos.org/ISO/desktop/v1/cachyos-desktop-linux-v1.iso"⟩) :=
  claim_C9 (mkResolver "desktop" [⟨some "240101/", some "v1"⟩])
    ⟨"desktop", [],
      none, some "https://cdn.cachyos.org/ISO/desktop/v1/cachyos-desktop-linux-v1.iso"⟩
    "https://cdn.cachyos.org/ISO/desktop/v1/cachyos-desktop-linux-v1.iso" rfl rfl

theorem getLatestVersionR_mk (edition : String) (links : List Link) (v : Option String)
    (hv : getLatestVersion links = Except.ok v) :
    getLatestVersionR (Resolver.mk edition links none none) =
      (Except.ok v, Resolver.mk edition links (some v) none) := by
  simp [getLatestVersionR, hv]

theorem getDownloadLinkR_mk (edition : String) (links : List Link) (v : Option String)
    (hv : getLatestVersion links = Except.ok v) :
    getDownloadLinkR (Resolver.mk edition links none none) =
      (Except.ok (getDownloadLink edition (pyStr v)),
       Resolver.mk edition links (some v) (some (getDownloadLink edition (pyStr v)))) := by
  simp [getDownloadLinkR, getLatestVersionR_mk edition links v hv]

theorem check_integrity_mk (edition : String) (links : List Link) (v : Option String)
    (resp : HttpResponse) (localHash : String)
    (hv : getLatestVersion links = Except.ok v) :
    (check_integrity (mkResolver edition links) (Except.ok resp) localHash).1 =
      match parseSha256Hash resp.text (canonicalFileName edition (pyStr v)) with
      | Except.ok hsh => Except.ok (sha256_hash_check localHash hsh)
      | Except.error e => Except.error e := by
  simp only [check_integrity, mkResolver, getDownloadLinkR_mk edition links v hv,
    getLatestVersionR]
  cases hp : parseSha256Hash resp.text (canonicalFileName edition (pyStr v)) <;> simp [hp]

/-- Claim C3: `check_integrity` compares the locally computed hash with
the hash the manifest parser returns for the canonical filename of the
resolved version; it returns `true` exactly on hash equality, returns
`false` on a mismatch without raising, and propagates a failed checksum
lookup as an error instead of reporting `false`. -/
theorem claim_C3 (edition : String) (links : List Link) (v : Option String)
    (resp : HttpResponse) (localHash : String)
    (hv : getLatestVersion links = Except.ok v) :
    (check_integrity (mkResolver edition links) (Except.ok resp) localHash).1 =
      (match parseSha256Hash resp.text (canonicalFileName edition (pyStr v)) with
       | Except.ok hsh => Except.ok (sha256_hash_check localHash hsh)
       | Except.error e => Except.error e) ∧
    ((check_integrity (mkResolver edition links) (Except.ok resp) localHash).1 =
        Except.ok true ↔
      ∃ hsh,
        parseSha256Hash resp.text (canonicalFileName edition (pyStr v)) = Except.ok hsh ∧
        localHash = hsh) := by
  have hA := check_integrity_mk edition links v resp localHash hv
  refine ⟨hA, ?_⟩
  rw [hA]
  cases hp : parseSha256Hash resp.text (canonicalFileName edition (pyStr v)) with
  | ok hsh =>
    simp only [sha256_hash_check]
    constructor
    · intro he
      exact ⟨hsh, rfl, eq_of_beq (Except.ok.inj he)⟩
    · rintro ⟨h2, hh2, heq⟩
      have hinj : hsh = h2 := Except.ok.inj hh2
      rw [heq, ← hinj]
      simp
  | error e => simp

/-- Integrity verification on a concrete resolver, manifest and matching
local hash. -/
theorem claim_C3_witness :
    (check_integrity (mkResolver "desktop" [⟨some "240101/", some "v1"⟩])
        (Except.ok ⟨200, "abc cachyos-desktop-linux-v1.iso"⟩) "abc").1 =
      (match parseSha256Hash "abc cachyos-desktop-linux-v1.iso"
          (canonicalFileName "desktop" (pyStr (some "v1"))) with
       | Except.ok hsh => Except.ok (sha256_hash_check "abc" hsh)
       | Except.error e => Except.error e) :=
  (claim_C3 "desktop" [⟨some "240101/", some "v1"⟩] (some "v1")
    ⟨200, "abc cachyos-desktop-linux-v1.iso"⟩ "abc" rfl).1

/-- Claim C6 (amended): a transport failure of the checksum-manifest
fetch propagates as that error, but a non-success HTTP status is never
detected: `check_integrity` reads only the response body and parses it as
a manifest whatever the status code is. -/
theorem claim_C6 (edition : String) (links : List Link) (v : Option String)
    (e : PyError) (text : String) (code code' : Nat) (localHash : String)
    (hv : getLatestVersion links = Except.ok v) :
    (check_integrity (mkResolver edition links) (Except.error e) localHash).1 =
      Except.error e ∧
    (check_integrity (mkResolver edition links) (Except.ok ⟨code, text⟩) localHash).1 =
      (check_integrity (mkResolver edition links) (Except.ok ⟨code', text⟩) localHash).1 := by
  constructor
  · simp [check_integrity, mkResolver, getDownloadLinkR_mk edition links v hv]
  · rw [check_integrity_mk edition links v ⟨code, text⟩ localHash hv,
      check_integrity_mk edition links v ⟨code', text⟩ localHash hv]

/-- Transport-error propagation and status independence (a 404 and a 200
response with the same body give the same integrity verdict), exercised
concretely. -/
theorem claim_C6_witness :
    (check_integrity (mkResolver "desktop" [⟨some "240101/", some "v1"⟩])
        (Except.error PyError.transportError) "abc").1 =
      Except.error PyError.transportError ∧
    (check_integrity (mkResolver "desktop" [⟨some "240101/", some "v1"⟩])
        (Except.ok ⟨404, "abc cachyos-desktop-linux-v1.iso"⟩) "abc").1 =
      (check_integrity (mkResolver "desktop" [⟨some "240101/", some "v1"⟩])
        (Except.ok ⟨200, "abc cachyos-desktop-linux-v1.iso"⟩) "abc").1 :=
  claim_C6 "desktop" [⟨some "240101/", some "v1"⟩] (some "v1") PyError.transportError
    "abc cachyos-desktop-linux-v1.iso" 404 200 "abc" rfl

/-- Claim C6 fails as stated: the manifest fetch answered with HTTP 404,
yet `check_integrity` parses the body as a manifest and returns a verdict
instead of raising an unreachable-resource (connection) error. -/
theorem claim_C6_counterexample :
    (check_integrity (mkResolver "desktop" [⟨some "240101/", some "v1"⟩])
        (Except.ok ⟨404, "abc cachyos-desktop-linux-v1.iso"⟩) "abc").1 =
      Except.ok true := rfl

/-- Claim C1 (amended): over listings whose links all carry an `href`,
and where every link whose href matches the version pattern also carries
a `title` (so malformed rows are exactly the pattern-failing ones, in any
number), the extractor returns precisely the lexical maximum of the
well-formed links' titles, independent of the order of the rows; the
counterexample shows the unrestricted claim fails when a malformed link
lacks its `href` attribute. -/
theorem claim_C1 (links links' : List Link) (t0 : String) (ts : List String)
    (hperm : links.Perm links')
    (hb : links.all benignLink = true)
    (hw : wellTitles links = t0 :: ts) :
    ∃ v, getLatestVersion links = Except.ok (some v) ∧
      getLatestVersion links' = Except.ok (some v) ∧
      v ∈ wellTitles links ∧ ∀ t ∈ wellTitles links, t ≤ v := by
  have hb' : links'.all benignLink = true := by
    rw [List.all_eq_true] at hb ⊢
    intro l hl
    exact hb l (hperm.mem_iff.mpr hl)
  have hpermW : (wellTitles links).Perm (wellTitles links') :=
    hperm.filterMap versionCandidateTitle
  have hlen : (wellTitles links').length = (t0 :: ts).length := by
    rw [← hw]
    exact hpermW.length_eq.symm
  obtain ⟨t0', ts', hw'⟩ : ∃ t0' ts', wellTitles links' = t0' :: ts' := by
    cases hcase : wellTitles links' with
    | nil => rw [hcase] at hlen; simp at hlen
    | cons a b => exact ⟨a, b, rfl⟩
  have h1 := getLatestVersion_eq_max links t0 ts hb hw
  have h2 := getLatestVersion_eq_max links' t0' ts' hb' hw'
  have hvmem : maxFrom t0 ts ∈ wellTitles links := by
    rw [hw]; exact maxFrom_mem t0 ts
  have hvub : ∀ t ∈ wellTitles links, t ≤ maxFrom t0 ts := by
    rw [hw]; exact le_maxFrom t0 ts
  have hvmem' : maxFrom t0' ts' ∈ wellTitles links' := by
    rw [hw']; exact maxFrom_mem t0' ts'
  have hvub' : ∀ t ∈ wellTitles links', t ≤ maxFrom t0' ts' := by
    rw [hw']; exact le_maxFrom t0' ts'
  have hvv : maxFrom t0 ts = maxFrom t0' ts' :=
    le_antisymm (hvub' (maxFrom t0 ts) (hpermW.mem_iff.mp hvmem))
      (hvub (maxFrom t0' ts') (hpermW.mem_iff.mpr hvmem'))
  exact ⟨maxFrom t0 ts, h1, by rw [hvv]; exact h2, hvmem, hvub⟩

/-- The extractor returning the lexical maximum of the well-formed titles
on a concrete listing and a reordering of it (with one pattern-failing
row present). -/
theorem claim_C1_witness :
    ∃ v, getLatestVersion
        [⟨some "nota/", some "zzz"⟩, ⟨some "240101/", some "v1"⟩,
          ⟨some "240601/", some "v2"⟩] = Except.ok (some v) ∧
      getLatestVersion
        [⟨some "240601/", some "v2"⟩, ⟨some "nota/", some "zzz"⟩,
          ⟨some "240101/", some "v1"⟩] = Except.ok (some v) ∧
      v ∈ wellTitles
        [⟨some "nota/", some "zzz"⟩, ⟨some "240101/", some "v1"⟩,
          ⟨some "240601/", some "v2"⟩] ∧
      ∀ t ∈ wellTitles
        [⟨some "nota/", some "zzz"⟩, ⟨some "240101/", some "v1"⟩,
          ⟨some "240601/", some "v2"⟩], t ≤ v :=
  claim_C1
    [⟨some "nota/", some "zzz"⟩, ⟨some "240101/", some "v1"⟩,
      ⟨some "240601/", some "v2"⟩]
    [⟨some "240601/", some "v2"⟩, ⟨some "nota/", some "zzz"⟩,
      ⟨some "240101/", some "v1"⟩]
    "v1" ["v2"] (by decide) (by decide) (by decide)

/-- Claim C1 fails as stated: this listing holds one well-formed version
link (title "v1") and one malformed link (its `href` attribute is
absent), yet the extractor does not return the maximum "v1" — it raises
`TypeError` because `re.match` receives `None`. -/
theorem claim_C1_counterexample :
    getLatestVersion [⟨some "123456/", some "v1"⟩, ⟨none, some "x"⟩] =
      Except.error (PyError.typeError "expected string or bytes-like object") := rfl
